import Mathlib

/-!
# Verification of the rdsbackup snapshot lifecycle controller

A shallow embedding of the core of `rdsbackup` (cross-region RDS snapshot
replication with tag-based ownership and retention).  The remote provider's
responses are modelled explicitly: every remote call's result is a value of
an `Except` type supplied through an environment, and the Go functions
become pure Lean functions over those values.

The embedded functions follow the Go source (`rdsbackup.go`, current v1.2
variant, plus the legacy v1.0 variant where noted) statement by statement:
  * `findAcccountID`  — account-ID extraction from the IAM user ARN,
  * `findLatestSnap`  — selection of the newest source snapshot,
  * `checkSnapCopied` — the idempotency check over destination tags,
  * `copySnap`        — copy-request construction and initiation check,
  * `waitForCopy`     — the completion-wait poll loop (fuelled),
  * `cleanupSnaps`    — the retention purge,
  * `runMain`         — the sequencing in `main`.
-/

deriving instance DecidableEq for Except

/-- A key/value tag as returned by `ListTagsForResource`. -/
structure Tag where
  key : String
  val : String
deriving DecidableEq, Repr

/-- A source-region snapshot as seen by `findLatestSnap`:
`DBSnapshotIdentifier` and `SnapshotCreateTime` (Unix seconds). -/
structure SrcSnap where
  id : String
  createTime : Int
deriving DecidableEq, Repr

/-- A destination-region snapshot together with the result of the
`ListTagsForResource` call made for it (`.error` models a failed tag read). -/
structure DstSnap where
  id : String
  createTime : Int
  tags : Except Unit (List Tag)
deriving DecidableEq, Repr

/-- A snapshot record as seen by one `DescribeDBSnapshots` poll in
`waitForCopy`: its `Status` and `PercentProgress`. -/
structure PollSnap where
  status : String
  percent : Int
deriving DecidableEq, Repr

/-- The fully-qualified snapshot reference
`fmt.Sprintf("arn:aws:rds:%s:%s:snapshot:%s", region, acct, id)`. -/
def fqsr (region acct id : String) : String :=
  "arn:aws:rds:" ++ region ++ ":" ++ acct ++ ":snapshot:" ++ id

/-- Go's `strings.Split` on the single-character separator `':'`,
over the character list of the string.  `splitCols "" = [[]]`,
`splitCols "a:b" = [["a"],["b"]]`. -/
def splitCols : List Char → List (List Char)
  | [] => [[]]
  | c :: rest =>
    match splitCols rest with
    | [] => [[]]
    | g :: gs => if c = ':' then [] :: g :: gs else (c :: g) :: gs

/-- The function `findAcccountID` (sic, source spelling): split the IAM user ARN on
colons; error unless exactly six fields; return the fifth field.
The argument is the result of the `iam.GetUser` remote call. -/
def findAcccountID (user : Except Unit String) : Except String String :=
  match user with
  | .error _ => .error "remote call failed"
  | .ok arn =>
    let parts := splitCols arn.toList
    if parts.length ≠ 6 then .error "Error parsing user ARN"
    else .ok (String.mk (parts.getD 4 []))

/-- The scanning loop of `findLatestSnap`: starting from
`newest := time.Unix(0,0)` and `newestId := ""`, take each snapshot whose
creation time is strictly after the running newest. -/
def scanNewest (snaps : List SrcSnap) : String × Int :=
  snaps.foldl
    (fun acc r => if acc.2 < r.createTime then (r.id, r.createTime) else acc)
    ("", 0)

/-- The function `findLatestSnap`: given the source region, the account id and the result
of the source-region `DescribeDBSnapshots` call, select the newest snapshot
and produce the fully-qualified snapshot reference. -/
def findLatestSnap (src acct : String) (resp : Except Unit (List SrcSnap)) :
    Except String String :=
  match resp with
  | .error _ => .error "remote call failed"
  | .ok snaps =>
    if snaps.length < 1 then .error "No snapshots found"
    else
      let n := scanNewest snaps
      if n.1.length < 1 then .error "No usable snapshot found"
      else .ok (fqsr src acct n.1)

/-- The tag loop of `checkSnapCopied`: fold over the tag list tracking
`(managedByUs, matchedSource)`; note the `else if`, which gives `sourcearn`
no chance to match on a tag already consumed by the `managedby` branch. -/
def scanTags (arn : String) (ts : List Tag) : Bool × Bool :=
  ts.foldl
    (fun acc t =>
      if t.key = "managedby" ∧ t.val = "rdsbackup" then (true, acc.2)
      else if t.key = "sourcearn" ∧ t.val = arn then (acc.1, true)
      else acc)
    (false, false)

/-- One destination snapshot's contribution to `checkSnapCopied`: a failed
tag read (`continue`) never matches; otherwise both flags must be set. -/
def snapAlreadyCopied (arn : String) (s : DstSnap) : Bool :=
  match s.tags with
  | .error _ => false
  | .ok ts =>
    let p := scanTags arn ts
    p.1 && p.2

/-- The function `checkSnapCopied`: `true` iff some destination snapshot carries
`managedby=rdsbackup` and `sourcearn=` the current reference.  A failure of
the destination `DescribeDBSnapshots` call itself returns `false`. -/
def checkSnapCopied (arn : String) (resp : Except Unit (List DstSnap)) : Bool :=
  match resp with
  | .error _ => false
  | .ok snaps => snaps.any (snapAlreadyCopied arn)

/-- The `CopyDBSnapshotMessage` built by `copySnap`. -/
structure CopyRequest where
  sourceArn : String
  targetId : String
  tags : List Tag
deriving DecidableEq, Repr

/-- The tag list attached by the current (v1.2) `copySnap`.  `tStd` and
`tUnix` stand for the two formattings of `time.Now()`. -/
def copyTags (src dbid arn tStd tUnix : String) : List Tag :=
  [⟨"time", tStd⟩, ⟨"timestamp", tUnix⟩, ⟨"source", src⟩,
   ⟨"sourceid", dbid⟩, ⟨"sourcearn", arn⟩, ⟨"managedby", "rdsbackup"⟩]

/-- The copy request built by the current (v1.2) `copySnap`: target id
`<dbid>-<formatted time>`, source the fully-qualified reference, and the
full tag vocabulary. -/
def mkCopyRequest (dbid src arn tFmt tStd tUnix : String) : CopyRequest :=
  { sourceArn := arn
    targetId := dbid ++ "-" ++ tFmt
    tags := copyTags src dbid arn tStd tUnix }

/-- The tag list attached by the legacy (v1.0) `copySnap`: identical to
`copyTags` except that no `sourcearn` tag is attached. -/
def legacyCopyTags (src dbid tStd tUnix : String) : List Tag :=
  [⟨"time", tStd⟩, ⟨"timestamp", tUnix⟩, ⟨"source", src⟩,
   ⟨"sourceid", dbid⟩, ⟨"managedby", "rdsbackup"⟩]

/-- The copy request built by the legacy (v1.0) `copySnap`. -/
def mkLegacyCopyRequest (dbid src arn tFmt tStd tUnix : String) : CopyRequest :=
  { sourceArn := arn
    targetId := dbid ++ "-" ++ tFmt
    tags := legacyCopyTags src dbid tStd tUnix }

/-- The initiation check of `copySnap`, applied to the `CopyDBSnapshot`
response: a remote error propagates; a response status other than
`"creating"` is the initiation error; `"creating"` succeeds. -/
def copySnapResult (resp : Except Unit String) : Except String Unit :=
  match resp with
  | .error _ => .error "remote call failed"
  | .ok st =>
    if st ≠ "creating" then
      .error ("Error creating snapshot - unexpected status: " ++ st)
    else .ok ()

/-- The poll loop of `waitForCopy`, fuelled.  `polls i` is the result of the
`i`-th `DescribeDBSnapshots` poll.  Returns `(outcome, next poll index)`;
the outcome is `none` when the fuel ran out with the copy still `creating`.
Each iteration: a remote error propagates; a response with other than one
snapshot is `"New snapshot missing!"`; a status other than `"creating"`
breaks out successfully; otherwise sleep and poll again. -/
def waitLoop (polls : Nat → Except Unit (List PollSnap)) :
    Nat → Nat → Option (Except String Unit) × Nat
  | 0, i => (none, i)
  | fuel + 1, i =>
    match polls i with
    | .error _ => (some (.error "remote call failed"), i + 1)
    | .ok [s] =>
      if s.status ≠ "creating" then (some (.ok ()), i + 1)
      else waitLoop polls fuel (i + 1)
    | .ok _ => (some (.error "New snapshot missing!"), i + 1)

/-- Go map insertion `m[k] = v` on the association list modelling
`snaps := map[int64]string{}`: overwrite an existing key, append a new one. -/
def mapInsert (m : List (Int × String)) (k : Int) (v : String) :
    List (Int × String) :=
  if m.any (fun p => p.1 = k) then
    m.map (fun p => if p.1 = k then (k, v) else p)
  else m ++ [(k, v)]

/-- Go map lookup `m[k]` (zero value `""` when absent). -/
def mapLookup (m : List (Int × String)) (k : Int) : String :=
  match m.find? (fun p => p.1 = k) with
  | some p => p.2
  | none => ""

/-- One iteration of the inner tag loop of `cleanupSnaps`: on a
`managedby=rdsbackup` tag, if the creation time is positive, record
`snaps[time] = id` and append the time to `keys`. -/
def gatherStep (s : DstSnap) (a : List (Int × String) × List Int)
    (t : Tag) : List (Int × String) × List Int :=
  if t.key = "managedby" ∧ t.val = "rdsbackup" then
    if 0 < s.createTime then
      (mapInsert a.1 s.createTime s.id, a.2 ++ [s.createTime])
    else a
  else a

/-- The inner tag loop of `cleanupSnaps` for one destination snapshot. -/
def gatherTags (s : DstSnap) (acc : List (Int × String) × List Int)
    (ts : List Tag) : List (Int × String) × List Int :=
  ts.foldl (gatherStep s) acc

/-- One iteration of the snapshot loop of `cleanupSnaps`: a failed tag
read skips the snapshot (`continue`); otherwise run the tag loop. -/
def gatherSnapStep (acc : List (Int × String) × List Int) (s : DstSnap) :
    List (Int × String) × List Int :=
  match s.tags with
  | .error _ => acc
  | .ok ts => gatherTags s acc ts

/-- The snapshot loop of `cleanupSnaps`. -/
def gatherSnaps (snaps : List DstSnap) : List (Int × String) × List Int :=
  snaps.foldl gatherSnapStep ([], [])

/-- The deletion loop of `cleanupSnaps` over the selected sort keys:
issue `DeleteDBSnapshot` for each mapped identifier; the first remote
failure aborts the remaining deletions; a response status other than
`"deleted"` is only a logged warning.  Returns the identifiers whose
deletion was issued, in order, with the final outcome. -/
def purgeLoop (m : List (Int × String))
    (deleteFn : String → Except Unit String) :
    List Int → List String × Except String Unit
  | [] => ([], .ok ())
  | k :: ks =>
    let i := mapLookup m k
    match deleteFn i with
    | .error _ => ([i], .error "remote call failed")
    | .ok _ =>
      match purgeLoop m deleteFn ks with
      | (rest, r) => (i :: rest, r)

/-- The function `cleanupSnaps`: a non-positive purge count disables the pass; a failure
of the destination enumeration propagates; otherwise collect the managed
snapshots, and when more than `purge` exist, sort the keys ascending
(Go's `sort.Sort` on an `int64` slice, whose result list any correct sort
yields) and delete the oldest `count − purge`. -/
def cleanupSnaps (purge : Int) (resp : Except Unit (List DstSnap))
    (deleteFn : String → Except Unit String) :
    List String × Except String Unit :=
  if purge ≤ 0 then ([], .ok ())
  else
    match resp with
    | .error _ => ([], .error "remote call failed")
    | .ok snaps =>
      let g := gatherSnaps snaps
      if (g.1.length : Int) ≤ purge then ([], .ok ())
      else
        purgeLoop g.1 deleteFn
          ((g.2.insertionSort (· ≤ ·)).take (g.1.length - purge.toNat))

/-- The remote provider's responses for one run: one value per remote call
the core makes (tag reads travel inside `DstSnap`), plus the formattings of
`time.Now()` used for the copy identifier and tags. -/
structure Env where
  getUser : Except Unit String
  srcSnaps : Except Unit (List SrcSnap)
  checkSnaps : Except Unit (List DstSnap)
  copyStatus : Except Unit String
  polls : Nat → Except Unit (List PollSnap)
  cleanSnaps : Except Unit (List DstSnap)
  deleteFn : String → Except Unit String
  nowFmt : String
  nowStd : String
  nowUnix : String

/-- The observable outcome of a run of `main`: the exit code (`none` when
the fuelled poll loop was still waiting), every copy request issued, the
number of polls made, and the deletions issued. -/
structure Outcome where
  exit : Option Nat
  copyRequests : List CopyRequest
  polled : Nat
  deleted : List String
deriving DecidableEq, Repr

/-- The sequencing of `main` (v1.2): resolve the account id, locate the
latest source snapshot, short-circuit with exit 0 if already copied,
otherwise copy, wait, and clean up; every propagated error is
`log.Fatal` (exit 1). -/
def runMain (dbid src : String) (purge : Int) (env : Env) (fuel : Nat) :
    Outcome :=
  match findAcccountID env.getUser with
  | .error _ => ⟨some 1, [], 0, []⟩
  | .ok acct =>
    match findLatestSnap src acct env.srcSnaps with
    | .error _ => ⟨some 1, [], 0, []⟩
    | .ok arn =>
      if checkSnapCopied arn env.checkSnaps then ⟨some 0, [], 0, []⟩
      else
        let req := mkCopyRequest dbid src arn env.nowFmt env.nowStd env.nowUnix
        match copySnapResult env.copyStatus with
        | .error _ => ⟨some 1, [req], 0, []⟩
        | .ok _ =>
          match waitLoop env.polls fuel 0 with
          | (none, n) => ⟨none, [req], n, []⟩
          | (some (.error _), n) => ⟨some 1, [req], n, []⟩
          | (some (.ok _), n) =>
            match cleanupSnaps purge env.cleanSnaps env.deleteFn with
            | (dels, .ok _) => ⟨some 0, [req], n, dels⟩
            | (dels, .error _) => ⟨some 1, [req], n, dels⟩

/-- A tag list carries key `k` with value `v`. -/
def hasTag (ts : List Tag) (k v : String) : Prop :=
  ∃ t ∈ ts, t.key = k ∧ t.val = v

instance (ts : List Tag) (k v : String) : Decidable (hasTag ts k v) := by
  unfold hasTag
  infer_instance

/-- A destination snapshot is managed: its tag read succeeded and the list
carries `managedby=rdsbackup`. -/
def isManaged (s : DstSnap) : Prop :=
  ∃ ts, s.tags = .ok ts ∧ hasTag ts "managedby" "rdsbackup"

instance (s : DstSnap) : Decidable (isManaged s) :=
  match h : s.tags with
  | .error _ =>
    .isFalse (fun ⟨_, hts, _⟩ => by rw [h] at hts; exact Except.noConfusion hts)
  | .ok ts =>
    if hb : hasTag ts "managedby" "rdsbackup" then .isTrue ⟨ts, h, hb⟩
    else
      .isFalse (fun ⟨ts', hts, hb'⟩ => by
        rw [h] at hts
        cases hts
        exact hb hb')

/-- Spec-side description of the retention policy: pair each managed
snapshot's timestamp with its identifier, sort ascending by timestamp, and
delete the first `count − keep` identifiers (oldest first); a keep-count of
0 disables the pass, and nothing is deleted when `count ≤ keep`. -/
def retentionSpec (pairs : List (Int × String)) (keep : Int) : List String :=
  if keep ≤ 0 ∨ (pairs.length : Int) ≤ keep then []
  else
    ((pairs.insertionSort (fun a b => a.1 ≤ b.1)).take
      (pairs.length - keep.toNat)).map (fun p => p.2)

/-! ## Characterisation of the idempotency tag scan -/

theorem scanTags_loop (arn : String) (ts : List Tag) (b1 b2 : Bool) :
    ts.foldl
      (fun acc t =>
        if t.key = "managedby" ∧ t.val = "rdsbackup" then (true, acc.2)
        else if t.key = "sourcearn" ∧ t.val = arn then (acc.1, true)
        else acc)
      (b1, b2) =
    (b1 || ts.any (fun t => decide (t.key = "managedby" ∧ t.val = "rdsbackup")),
     b2 || ts.any (fun t => decide (t.key = "sourcearn" ∧ t.val = arn))) := by
  induction ts generalizing b1 b2 with
  | nil => simp
  | cons t rest ih =>
    by_cases hm : t.key = "managedby" ∧ t.val = "rdsbackup"
    · have hs : ¬(t.key = "sourcearn" ∧ t.val = arn) := by
        rintro ⟨hk, -⟩
        rw [hk] at hm
        exact absurd hm.1 (by decide)
      simp only [List.foldl_cons, List.any_cons, if_pos hm, ih,
        decide_eq_true_eq, hm, hs]
      simp
    · by_cases hs : t.key = "sourcearn" ∧ t.val = arn
      · simp only [List.foldl_cons, List.any_cons, if_neg hm, if_pos hs, ih,
          decide_eq_true_eq, hm, hs]
        simp
      · simp only [List.foldl_cons, List.any_cons, if_neg hm, if_neg hs, ih,
          decide_eq_true_eq, hm, hs]
        simp

theorem scanTags_eq (arn : String) (ts : List Tag) :
    scanTags arn ts =
      (ts.any (fun t => decide (t.key = "managedby" ∧ t.val = "rdsbackup")),
       ts.any (fun t => decide (t.key = "sourcearn" ∧ t.val = arn))) := by
  unfold scanTags
  rw [scanTags_loop]
  simp

theorem snapAlreadyCopied_iff (arn : String) (s : DstSnap) :
    snapAlreadyCopied arn s = true ↔
      ∃ ts, s.tags = .ok ts ∧ hasTag ts "managedby" "rdsbackup" ∧
        hasTag ts "sourcearn" arn := by
  unfold snapAlreadyCopied
  cases h : s.tags with
  | error e =>
    simp only [Bool.false_eq_true, false_iff]
    rintro ⟨ts, hts, -⟩
    exact Except.noConfusion hts
  | ok ts =>
    dsimp only
    rw [scanTags_eq]
    simp only [Bool.and_eq_true, List.any_eq_true, decide_eq_true_eq]
    constructor
    · rintro ⟨⟨t1, ht1, h1⟩, ⟨t2, ht2, h2⟩⟩
      exact ⟨ts, rfl, ⟨t1, ht1, h1⟩, ⟨t2, ht2, h2⟩⟩
    · rintro ⟨ts', hts, ⟨t1, ht1, h1⟩, ⟨t2, ht2, h2⟩⟩
      injection hts with hts2
      subst hts2
      exact ⟨⟨t1, ht1, h1⟩, ⟨t2, ht2, h2⟩⟩

theorem checkSnapCopied_iff (arn : String) (ds : List DstSnap) :
    checkSnapCopied arn (.ok ds) = true ↔
      ∃ s ∈ ds, ∃ ts, s.tags = .ok ts ∧ hasTag ts "managedby" "rdsbackup" ∧
        hasTag ts "sourcearn" arn := by
  unfold checkSnapCopied
  rw [List.any_eq_true]
  constructor
  · rintro ⟨s, hs, hcp⟩
    exact ⟨s, hs, (snapAlreadyCopied_iff arn s).1 hcp⟩
  · rintro ⟨s, hs, hcp⟩
    exact ⟨s, hs, (snapAlreadyCopied_iff arn s).2 hcp⟩

/-! ## The snapshot locator's scan -/

theorem scanNewest_loop_lt (c : Int) (l : List SrcSnap) :
    ∀ acc : String × Int, (∀ x ∈ l, x.createTime < c) → acc.2 < c →
      (l.foldl
        (fun acc r =>
          if acc.2 < r.createTime then (r.id, r.createTime) else acc)
        acc).2 < c := by
  induction l with
  | nil => intro acc _ h2; simpa using h2
  | cons x rest ih =>
    intro acc hl h2
    simp only [List.foldl_cons]
    by_cases hx : acc.2 < x.createTime
    · rw [if_pos hx]
      exact ih _ (fun y hy => hl y (List.mem_cons_of_mem x hy))
        (hl x (List.mem_cons_self x rest))
    · rw [if_neg hx]
      exact ih _ (fun y hy => hl y (List.mem_cons_of_mem x hy)) h2

theorem scanNewest_loop_fix (acc : String × Int) (l : List SrcSnap)
    (hl : ∀ x ∈ l, x.createTime ≤ acc.2) :
    l.foldl
      (fun acc r =>
        if acc.2 < r.createTime then (r.id, r.createTime) else acc)
      acc = acc := by
  induction l with
  | nil => rfl
  | cons x rest ih =>
    simp only [List.foldl_cons]
    rw [if_neg (not_lt.mpr (hl x (List.mem_cons_self x rest)))]
    exact ih (fun y hy => hl y (List.mem_cons_of_mem x hy))

theorem scanNewest_first_max (l1 l2 : List SrcSnap) (r : SrcSnap)
    (hpos : 0 < r.createTime)
    (hbefore : ∀ x ∈ l1, x.createTime < r.createTime)
    (hafter : ∀ x ∈ l2, x.createTime ≤ r.createTime) :
    scanNewest (l1 ++ r :: l2) = (r.id, r.createTime) := by
  unfold scanNewest
  rw [List.foldl_append]
  have h1 :
      (l1.foldl
        (fun acc r =>
          if acc.2 < r.createTime then (r.id, r.createTime) else acc)
        ("", 0)).2 < r.createTime :=
    scanNewest_loop_lt r.createTime l1 ("", 0) hbefore hpos
  simp only [List.foldl_cons]
  rw [if_pos h1]
  exact scanNewest_loop_fix (r.id, r.createTime) l2 (by simpa using hafter)

theorem string_length_lt_one (s : String) : s.length < 1 ↔ s = "" := by
  constructor
  · intro h
    apply String.ext
    have : s.data.length = 0 := by
      have hs : s.length = s.data.length := rfl
      omega
    simpa using List.length_eq_zero.mp this
  · intro h
    rw [h]
    decide

/-- C4 counterexample: a singleton source-snapshot list whose only entry has
creation time equal to the Unix epoch.  The claim says the Locator selects
the single snapshot of a singleton list, but `findLatestSnap` initialises
its running newest to the epoch and only takes strictly later snapshots, so
it fails with the defensive `"No usable snapshot found"` error instead. -/
theorem c4_counterexample :
    findLatestSnap "us-east-1" "123456789012"
        (.ok [⟨"snap-a", 0⟩]) = .error "No usable snapshot found" := by
  decide

/-- C4 (amended): for every source-snapshot list in which some snapshot has
a creation time strictly after the Unix epoch, the Locator selects the first
snapshot attaining the maximum creation timestamp and — provided that
snapshot's identifier is non-empty — returns the fully-qualified snapshot
reference composed from the source region, the account identifier, and the
chosen snapshot's identifier.  (For a singleton list with post-epoch
creation time and non-empty identifier this is that single snapshot.) -/
theorem c4_locator_selects_max (src acct : String) (l1 l2 : List SrcSnap)
    (r : SrcSnap) (hpos : 0 < r.createTime) (hid : r.id ≠ "")
    (hbefore : ∀ x ∈ l1, x.createTime < r.createTime)
    (hafter : ∀ x ∈ l2, x.createTime ≤ r.createTime) :
    findLatestSnap src acct (.ok (l1 ++ r :: l2)) =
      .ok (fqsr src acct r.id) := by
  unfold findLatestSnap
  have hne : ¬(l1 ++ r :: l2).length < 1 := by
    simp only [List.length_append, List.length_cons]
    omega
  dsimp only
  rw [if_neg hne, scanNewest_first_max l1 l2 r hpos hbefore hafter]
  dsimp only
  rw [if_neg (fun h => hid ((string_length_lt_one r.id).mp h))]

/-- C4 witness: instantiated at the singleton list `[⟨"snap-b", 7⟩]`. -/
theorem c4_witness :
    findLatestSnap "us-east-1" "123456789012" (.ok [⟨"snap-b", 7⟩]) =
      .ok (fqsr "us-east-1" "123456789012" "snap-b") :=
  c4_locator_selects_max "us-east-1" "123456789012" [] [] ⟨"snap-b", 7⟩
    (by decide) (by decide) (by intro x hx; cases hx) (by intro x hx; cases hx)

/-- C9: on a successful enumeration, the Locator fails in exactly two
cases — `"No snapshots found"` precisely when the enumeration is empty, and
the independent defensive `"No usable snapshot found"` precisely when the
enumeration is non-empty but the scan selected no candidate (the selected
identifier stayed empty); in every other case it succeeds, and then the
result is the fully-qualified reference of the scanned selection. -/
theorem c9_locator_failure_cases (src acct : String) (l : List SrcSnap) :
    (findLatestSnap src acct (.ok l) = .error "No snapshots found" ↔ l = [])
    ∧ (findLatestSnap src acct (.ok l) = .error "No usable snapshot found" ↔
        l ≠ [] ∧ (scanNewest l).1 = "")
    ∧ ((∃ a, findLatestSnap src acct (.ok l) = .ok a) ↔
        l ≠ [] ∧ (scanNewest l).1 ≠ "")
    ∧ (∀ a, findLatestSnap src acct (.ok l) = .ok a →
        a = fqsr src acct (scanNewest l).1) := by
  have hmsg : ("No snapshots found" : String) ≠ "No usable snapshot found" :=
    by decide
  unfold findLatestSnap
  dsimp only
  by_cases hl : l.length < 1
  · have hnil : l = [] := List.length_eq_zero.mp (by omega)
    rw [if_pos hl]
    refine ⟨by simp [hnil], ?_, ?_, ?_⟩
    · constructor
      · intro h
        exact absurd (Except.error.inj h) hmsg
      · rintro ⟨hne, -⟩
        exact absurd hnil hne
    · constructor
      · rintro ⟨a, ha⟩
        exact Except.noConfusion ha
      · rintro ⟨hne, -⟩
        exact absurd hnil hne
    · intro a ha
      exact Except.noConfusion ha
  · have hnil : l ≠ [] := by
      intro h
      rw [h] at hl
      exact hl (by decide)
    rw [if_neg hl]
    by_cases hid : (scanNewest l).1.length < 1
    · have hid2 : (scanNewest l).1 = "" := (string_length_lt_one _).mp hid
      rw [if_pos hid]
      refine ⟨?_, by simp [hnil, hid2], ?_, ?_⟩
      · constructor
        · intro h
          exact absurd (Except.error.inj h).symm hmsg
        · rintro rfl
          exact absurd hl (by simp)
      · constructor
        · rintro ⟨a, ha⟩
          exact Except.noConfusion ha
        · rintro ⟨-, hne⟩
          exact absurd hid2 hne
      · intro a ha
        exact Except.noConfusion ha
    · have hid2 : (scanNewest l).1 ≠ "" :=
        fun h => hid ((string_length_lt_one _).mpr h)
      rw [if_neg hid]
      refine ⟨?_, ?_, ?_, ?_⟩
      · constructor
        · intro h
          exact Except.noConfusion h
        · rintro rfl
          exact absurd hl (by simp)
      · constructor
        · intro h
          exact Except.noConfusion h
        · rintro ⟨-, hne⟩
          exact absurd hne hid2
      · exact ⟨fun _ => ⟨hnil, hid2⟩, fun _ => ⟨_, rfl⟩⟩
      · intro a ha
        exact (Except.ok.inj ha).symm

/-- C9 witness: the final conjunct applied at a concrete successful run. -/
theorem c9_witness :
    ("arn:aws:rds:us-east-1:123:snapshot:b" : String) =
      fqsr "us-east-1" "123" (scanNewest [⟨"a", 5⟩, ⟨"b", 9⟩]).1 :=
  (c9_locator_failure_cases "us-east-1" "123" [⟨"a", 5⟩, ⟨"b", 9⟩]).2.2.2
    "arn:aws:rds:us-east-1:123:snapshot:b" (by decide)

/-! ## Unfolding the main sequencing past the idempotency check -/

theorem runMain_after_check (dbid src : String) (purge : Int) (env : Env)
    (fuel : Nat) (acct a : String)
    (hacct : findAcccountID env.getUser = .ok acct)
    (harn : findLatestSnap src acct env.srcSnaps = .ok a)
    (hchk : checkSnapCopied a env.checkSnaps = false) :
    runMain dbid src purge env fuel =
      (match copySnapResult env.copyStatus with
      | .error _ =>
        ⟨some 1, [mkCopyRequest dbid src a env.nowFmt env.nowStd env.nowUnix],
          0, []⟩
      | .ok _ =>
        match waitLoop env.polls fuel 0 with
        | (none, n) =>
          ⟨none, [mkCopyRequest dbid src a env.nowFmt env.nowStd env.nowUnix],
            n, []⟩
        | (some (.error _), n) =>
          ⟨some 1,
            [mkCopyRequest dbid src a env.nowFmt env.nowStd env.nowUnix],
            n, []⟩
        | (some (.ok _), n) =>
          match cleanupSnaps purge env.cleanSnaps env.deleteFn with
          | (dels, .ok _) =>
            ⟨some 0,
              [mkCopyRequest dbid src a env.nowFmt env.nowStd env.nowUnix],
              n, dels⟩
          | (dels, .error _) =>
            ⟨some 1,
              [mkCopyRequest dbid src a env.nowFmt env.nowStd env.nowUnix],
              n, dels⟩ : Outcome) := by
  unfold runMain
  rw [hacct]
  dsimp only
  rw [harn]
  dsimp only
  rw [hchk]
  simp

theorem runMain_already_copied (dbid src : String) (purge : Int) (env : Env)
    (fuel : Nat) (acct a : String)
    (hacct : findAcccountID env.getUser = .ok acct)
    (harn : findLatestSnap src acct env.srcSnaps = .ok a)
    (hchk : checkSnapCopied a env.checkSnaps = true) :
    runMain dbid src purge env fuel = ⟨some 0, [], 0, []⟩ := by
  unfold runMain
  rw [hacct]
  dsimp only
  rw [harn]
  dsimp only
  rw [hchk]
  simp

/-! ## Concrete environments used by the witnesses -/

/-- A destination tag set marking a copy of the current source reference. -/
def hitTags : List Tag :=
  [⟨"managedby", "rdsbackup"⟩,
   ⟨"sourcearn", "arn:aws:rds:us-east-1:123:snapshot:b"⟩]

/-- A destination tag set managed by the tool but copied from a different
source snapshot. -/
def missTags : List Tag :=
  [⟨"managedby", "rdsbackup"⟩,
   ⟨"sourcearn", "arn:aws:rds:us-east-1:123:snapshot:old"⟩]

/-- An environment in which the idempotency check finds a match. -/
def envHit : Env :=
  { getUser := .ok "arn:aws:iam::123:user/bob"
    srcSnaps := .ok [⟨"a", 5⟩, ⟨"b", 9⟩]
    checkSnaps := .ok [⟨"c", 3, .ok hitTags⟩]
    copyStatus := .ok "creating"
    polls := fun _ => .ok [⟨"available", 100⟩]
    cleanSnaps := .ok []
    deleteFn := fun _ => .ok "deleted"
    nowFmt := "F", nowStd := "S", nowUnix := "U" }

/-- An environment in which the only destination snapshot is managed but
carries a different `sourcearn`, so the run proceeds to copy. -/
def envMiss : Env :=
  { getUser := .ok "arn:aws:iam::123:user/bob"
    srcSnaps := .ok [⟨"a", 5⟩, ⟨"b", 9⟩]
    checkSnaps := .ok [⟨"c", 3, .ok missTags⟩]
    copyStatus := .ok "creating"
    polls := fun _ => .ok [⟨"available", 100⟩]
    cleanSnaps := .ok []
    deleteFn := fun _ => .ok "deleted"
    nowFmt := "F", nowStd := "S", nowUnix := "U" }

/-- C1: over a successfully enumerated destination snapshot list, the
idempotency check reports "already copied" iff some listed snapshot has a
readable tag set carrying both `managedby=rdsbackup` and `sourcearn` equal
to the locator's fully-qualified reference of this run; on a hit the run
exits 0 with no copy request, and on a miss (in particular `managedby`
matching but `sourcearn` differing) exactly one copy request is issued. -/
theorem c1_idempotency (dbid src : String) (purge : Int) (env : Env)
    (fuel : Nat) (acct a : String) (ds : List DstSnap)
    (hacct : findAcccountID env.getUser = .ok acct)
    (harn : findLatestSnap src acct env.srcSnaps = .ok a)
    (hds : env.checkSnaps = .ok ds) :
    (checkSnapCopied a env.checkSnaps = true ↔
      ∃ s ∈ ds, ∃ ts, s.tags = .ok ts ∧ hasTag ts "managedby" "rdsbackup" ∧
        hasTag ts "sourcearn" a)
    ∧ (checkSnapCopied a env.checkSnaps = true →
        runMain dbid src purge env fuel = ⟨some 0, [], 0, []⟩)
    ∧ (checkSnapCopied a env.checkSnaps = false →
        (runMain dbid src purge env fuel).copyRequests =
          [mkCopyRequest dbid src a env.nowFmt env.nowStd env.nowUnix]) := by
  refine ⟨by rw [hds]; exact checkSnapCopied_iff a ds,
    fun h => runMain_already_copied dbid src purge env fuel acct a hacct harn h,
    fun h => ?_⟩
  rw [runMain_after_check dbid src purge env fuel acct a hacct harn h]
  cases copySnapResult env.copyStatus with
  | error e => rfl
  | ok u =>
    dsimp only
    rcases waitLoop env.polls fuel 0 with ⟨o, n⟩
    cases o with
    | none => rfl
    | some r =>
      cases r with
      | error e => rfl
      | ok u2 =>
        dsimp only
        rcases cleanupSnaps purge env.cleanSnaps env.deleteFn with ⟨dels, res⟩
        cases res with
        | error e => rfl
        | ok u3 => rfl

/-- C1 witness: on `envHit` the run short-circuits with exit 0 and no copy
request; on `envMiss` (same `managedby`, different `sourcearn`) exactly the
one expected copy request is issued. -/
theorem c1_witness :
    runMain "db" "us-east-1" 0 envHit 3 = ⟨some 0, [], 0, []⟩ ∧
    (runMain "db" "us-east-1" 0 envMiss 3).copyRequests =
      [mkCopyRequest "db" "us-east-1"
        "arn:aws:rds:us-east-1:123:snapshot:b" "F" "S" "U"] := by
  constructor
  · exact (c1_idempotency "db" "us-east-1" 0 envHit 3 "123"
      "arn:aws:rds:us-east-1:123:snapshot:b" [⟨"c", 3, .ok hitTags⟩]
      (by decide) (by decide) (by decide)).2.1 (by decide)
  · exact (c1_idempotency "db" "us-east-1" 0 envMiss 3 "123"
      "arn:aws:rds:us-east-1:123:snapshot:b" [⟨"c", 3, .ok missTags⟩]
      (by decide) (by decide) (by decide)).2.2 (by decide)

/-- C7: when the copy-initiation response carries a status other than
`"creating"`, initiation returns the initiation error, the run exits 1
having issued exactly one (never retried) copy request, and the
completion-wait loop performs zero polls; when the status is `"creating"`,
initiation succeeds.  The final conjunct shows that no run of the tool ever
issues more than one copy request. -/
theorem c7_copy_initiation (dbid src : String) (purge : Int) (env : Env)
    (fuel : Nat) (acct a st : String)
    (hacct : findAcccountID env.getUser = .ok acct)
    (harn : findLatestSnap src acct env.srcSnaps = .ok a)
    (hchk : checkSnapCopied a env.checkSnaps = false)
    (hst : env.copyStatus = .ok st) :
    (st ≠ "creating" →
      copySnapResult env.copyStatus =
        .error ("Error creating snapshot - unexpected status: " ++ st) ∧
      runMain dbid src purge env fuel =
        ⟨some 1, [mkCopyRequest dbid src a env.nowFmt env.nowStd env.nowUnix],
          0, []⟩)
    ∧ (st = "creating" → copySnapResult env.copyStatus = .ok ())
    ∧ (∀ (env2 : Env) (purge2 : Int) (fuel2 : Nat),
        (runMain dbid src purge2 env2 fuel2).copyRequests.length ≤ 1) := by
  refine ⟨fun hne => ?_, fun he => ?_, fun env2 purge2 fuel2 => ?_⟩
  · have hcp : copySnapResult env.copyStatus =
        .error ("Error creating snapshot - unexpected status: " ++ st) := by
      rw [hst]
      unfold copySnapResult
      dsimp only
      rw [if_pos hne]
    refine ⟨hcp, ?_⟩
    rw [runMain_after_check dbid src purge env fuel acct a hacct harn hchk, hcp]
  · rw [hst]
    unfold copySnapResult
    dsimp only
    rw [if_neg (by simp [he])]
  · unfold runMain
    repeat' split
    all_goals simp

/-- An environment whose copy-initiation response reports the terminal
status `"failed"`. -/
def envFailedCopy : Env :=
  { envMiss with copyStatus := .ok "failed" }

/-- C7 witness: with the concrete response status `"failed"` the run exits
1 after one copy request and zero polls. -/
theorem c7_witness :
    copySnapResult envFailedCopy.copyStatus =
      .error ("Error creating snapshot - unexpected status: " ++ "failed") ∧
    runMain "db" "us-east-1" 0 envFailedCopy 3 =
      ⟨some 1, [mkCopyRequest "db" "us-east-1"
        "arn:aws:rds:us-east-1:123:snapshot:b" "F" "S" "U"], 0, []⟩ :=
  (c7_copy_initiation "db" "us-east-1" 0 envFailedCopy 3 "123"
    "arn:aws:rds:us-east-1:123:snapshot:b" "failed"
    (by decide) (by decide) (by decide) (by decide)).1 (by decide)

/-! ## The completion-wait poll loop -/

theorem waitLoop_skip (polls : Nat → Except Unit (List PollSnap)) :
    ∀ (j i fuel : Nat),
      (∀ k, k < j → ∃ p : Int, polls (i + k) = .ok [⟨"creating", p⟩]) →
      j ≤ fuel →
      waitLoop polls fuel i = waitLoop polls (fuel - j) (i + j) := by
  intro j
  induction j with
  | zero => intro i fuel _ _; simp
  | succ j ih =>
    intro i fuel hpre hf
    obtain ⟨fuel2, rfl⟩ : ∃ f2, fuel = f2 + 1 := ⟨fuel - 1, by omega⟩
    obtain ⟨p, hp⟩ := hpre 0 (Nat.succ_pos j)
    have hp0 : polls i = .ok [⟨"creating", p⟩] := by simpa using hp
    have hstep : waitLoop polls (fuel2 + 1) i = waitLoop polls fuel2 (i + 1) := by
      conv_lhs => rw [waitLoop]
      rw [hp0]
      dsimp only
      rw [if_neg (by simp)]
    rw [hstep]
    have hpre2 : ∀ k, k < j → ∃ p : Int, polls (i + 1 + k) = .ok [⟨"creating", p⟩] := by
      intro k hk
      have he : i + 1 + k = i + (k + 1) := by omega
      rw [he]
      exact hpre (k + 1) (by omega)
    have hres := ih (i + 1) fuel2 hpre2 (by omega)
    rw [hres]
    have e1 : fuel2 + 1 - (j + 1) = fuel2 - j := by omega
    have e2 : i + (j + 1) = i + 1 + j := by omega
    rw [e1, e2]

/-- C8: with the first `j` polls all returning a single `"creating"`
snapshot (any percent-complete), the completion-wait loop exits
successfully at poll `j` as soon as that poll's single matching snapshot
has any status other than `"creating"`, whatever its percent-complete
value; and it returns the `"New snapshot missing!"` failure at poll `j`
when that poll yields a number of matching snapshots other than one. -/
theorem c8_completion_wait (polls : Nat → Except Unit (List PollSnap))
    (j fuel : Nat)
    (hpre : ∀ k, k < j → ∃ p : Int, polls k = .ok [⟨"creating", p⟩])
    (hfuel : j < fuel) :
    (∀ s : PollSnap, polls j = .ok [s] → s.status ≠ "creating" →
      waitLoop polls fuel 0 = (some (.ok ()), j + 1))
    ∧ (∀ l : List PollSnap, polls j = .ok l → l.length ≠ 1 →
      waitLoop polls fuel 0 = (some (.error "New snapshot missing!"), j + 1)) := by
  have hskip := waitLoop_skip polls j 0 fuel
    (fun k hk => by simpa using hpre k hk) (le_of_lt hfuel)
  obtain ⟨f2, hf2⟩ : ∃ f2, fuel - j = f2 + 1 := ⟨fuel - j - 1, by omega⟩
  have hj : (0 : Nat) + j = j := by omega
  constructor
  · intro s hs hstat
    rw [hskip, hf2, hj]
    unfold waitLoop
    rw [hs]
    dsimp only
    rw [if_pos hstat]
  · intro l hl hlen
    rw [hskip, hf2, hj]
    unfold waitLoop
    rw [hl]
    cases l with
    | nil => rfl
    | cons x rest =>
      cases rest with
      | nil => simp at hlen
      | cons y rest2 => rfl

/-- C8 witness: one `"creating"` poll at 40 percent, then a poll whose
single snapshot is `"available"`: the loop exits successfully after the
second poll. -/
theorem c8_witness :
    waitLoop
      (fun i => if i = 0 then .ok [⟨"creating", 40⟩]
                else .ok [⟨"available", 100⟩]) 3 0 =
      (some (.ok ()), 2) := by
  have h := (c8_completion_wait
    (fun i => if i = 0 then .ok [⟨"creating", 40⟩]
              else .ok [⟨"available", 100⟩]) 1 3
    (fun k hk => by
      have hk0 : k = 0 := by omega
      subst hk0
      exact ⟨40, rfl⟩)
    (by omega)).1 ⟨"available", 100⟩ (by decide) (by decide)
  exact h

/-! ## Splitting the user ARN -/

theorem splitCols_ne_nil (cs : List Char) : splitCols cs ≠ [] := by
  cases cs with
  | nil => simp [splitCols]
  | cons c rest =>
    rw [splitCols]
    cases splitCols rest with
    | nil => simp
    | cons g gs =>
      dsimp only
      by_cases hc : c = ':'
      · rw [if_pos hc]
        simp
      · rw [if_neg hc]
        simp

theorem length_splitCols (cs : List Char) :
    (splitCols cs).length = cs.count ':' + 1 := by
  induction cs with
  | nil => rfl
  | cons c rest ih =>
    rw [splitCols]
    cases h : splitCols rest with
    | nil => exact absurd h (splitCols_ne_nil rest)
    | cons g gs =>
      rw [h] at ih
      dsimp only
      by_cases hc : c = ':'
      · rw [if_pos hc]
        simp only [List.length_cons] at ih ⊢
        rw [List.count_cons]
        simp only [hc, beq_self_eq_true, if_true]
        omega
      · rw [if_neg hc]
        simp only [List.length_cons] at ih ⊢
        rw [List.count_cons]
        simp only [beq_iff_eq, if_neg hc]
        omega

theorem splitCols_no_colon (p : List Char) (hp : ':' ∉ p) :
    splitCols p = [p] := by
  induction p with
  | nil => rfl
  | cons c rest ih =>
    have hc : c ≠ ':' := fun h => hp (by rw [← h]; exact List.mem_cons_self c rest)
    have hrest : ':' ∉ rest := fun h => hp (List.mem_cons_of_mem c h)
    rw [splitCols, ih hrest]
    dsimp only
    rw [if_neg hc]

theorem splitCols_append (p rest : List Char) (hp : ':' ∉ p) :
    splitCols (p ++ ':' :: rest) = p :: splitCols rest := by
  induction p with
  | nil =>
    simp only [List.nil_append]
    rw [splitCols]
    cases h : splitCols rest with
    | nil => exact absurd h (splitCols_ne_nil rest)
    | cons g gs =>
      dsimp only
      rw [if_pos rfl, ← h]
  | cons c p2 ih =>
    have hc : c ≠ ':' := fun h => hp (by rw [← h]; exact List.mem_cons_self c _)
    have hp2 : ':' ∉ p2 := fun h => hp (List.mem_cons_of_mem c h)
    simp only [List.cons_append]
    rw [splitCols, ih hp2]
    dsimp only
    rw [if_neg hc]

/-- C10: account resolution splits the user ARN on colons; it succeeds
exactly when the ARN has five colons (six fields), failing with the parse
error otherwise; and on a six-field ARN it returns the fifth field. -/
theorem c10_account_resolution :
    (∀ s : String,
      ((∃ acct, findAcccountID (.ok s) = .ok acct) ↔ s.toList.count ':' = 5)
      ∧ (s.toList.count ':' ≠ 5 →
          findAcccountID (.ok s) = .error "Error parsing user ARN"))
    ∧ (∀ p q r u v w : List Char,
        ':' ∉ p → ':' ∉ q → ':' ∉ r → ':' ∉ u → ':' ∉ v → ':' ∉ w →
        findAcccountID (.ok (String.mk
          (p ++ ':' ::
            (q ++ ':' :: (r ++ ':' :: (u ++ ':' :: (v ++ ':' :: w))))))) =
          .ok (String.mk v)) := by
  constructor
  · intro s
    unfold findAcccountID
    dsimp only
    have hlen := length_splitCols s.toList
    constructor
    · constructor
      · rintro ⟨acct, hacct⟩
        by_cases h6 : (splitCols s.toList).length ≠ 6
        · rw [if_pos h6] at hacct
          exact Except.noConfusion hacct
        · have h6e : (splitCols s.toList).length = 6 := not_ne_iff.mp h6
          omega
      · intro hcnt
        rw [if_neg (by omega)]
        exact ⟨_, rfl⟩
    · intro hcnt
      rw [if_pos (by omega)]
  · intro p q r u v w hp hq hr hu hv hw
    unfold findAcccountID
    dsimp only
    have htl : (String.mk
        (p ++ ':' ::
          (q ++ ':' :: (r ++ ':' :: (u ++ ':' :: (v ++ ':' :: w)))))).toList =
        p ++ ':' :: (q ++ ':' :: (r ++ ':' :: (u ++ ':' :: (v ++ ':' :: w)))) :=
      rfl
    rw [htl, splitCols_append _ _ hp, splitCols_append _ _ hq,
      splitCols_append _ _ hr, splitCols_append _ _ hu,
      splitCols_append _ _ hv, splitCols_no_colon _ hw]
    rw [if_neg (by simp)]
    rfl

/-- C10 witness: a six-field ARN built from colon-free fields resolves to
its fifth field, and the iff applied at a concrete five-colon ARN. -/
theorem c10_witness :
    findAcccountID (.ok (String.mk
      (['a'] ++ ':' ::
        (['b'] ++ ':' ::
          (['c'] ++ ':' ::
            ([] ++ ':' :: (['1', '2', '3'] ++ ':' :: ['u', 's', 'r'])))))))
      = .ok (String.mk ['1', '2', '3']) :=
  c10_account_resolution.2 ['a'] ['b'] ['c'] [] ['1', '2', '3'] ['u', 's', 'r']
    (by decide) (by decide) (by decide) (by decide) (by decide) (by decide)

/-! ## Properties of the retention map and gather loops -/

theorem mapInsert_mem (m : List (Int × String)) (k : Int) (v : String)
    (q : Int × String) (hq : q ∈ mapInsert m k v) : q ∈ m ∨ q = (k, v) := by
  unfold mapInsert at hq
  by_cases h : m.any (fun p => decide (p.1 = k)) = true
  · rw [if_pos h] at hq
    obtain ⟨p, hp, hpq⟩ := List.mem_map.mp hq
    by_cases hk : p.1 = k
    · rw [if_pos hk] at hpq
      exact Or.inr hpq.symm
    · rw [if_neg hk] at hpq
      exact Or.inl (hpq ▸ hp)
  · rw [if_neg h] at hq
    rcases List.mem_append.mp hq with h1 | h2
    · exact Or.inl h1
    · exact Or.inr (List.mem_singleton.mp h2)

theorem mapInsert_keys (m : List (Int × String)) (k : Int) (v : String)
    (x : Int) (hx : x ∈ m.map Prod.fst ∨ x = k) :
    x ∈ (mapInsert m k v).map Prod.fst := by
  unfold mapInsert
  by_cases h : m.any (fun p => decide (p.1 = k)) = true
  · rw [if_pos h]
    rcases hx with hx | rfl
    · obtain ⟨p, hp, hpx⟩ := List.mem_map.mp hx
      apply List.mem_map.mpr
      refine ⟨if p.1 = k then (k, v) else p, List.mem_map_of_mem _ hp, ?_⟩
      by_cases hk : p.1 = k
      · rw [if_pos hk]
        dsimp only
        omega
      · rw [if_neg hk]
        exact hpx
    · obtain ⟨p, hp, hpk⟩ := List.any_eq_true.mp h
      apply List.mem_map.mpr
      refine ⟨if p.1 = x then (x, v) else p, List.mem_map_of_mem _ hp, ?_⟩
      rw [if_pos (by simpa using hpk)]
  · rw [if_neg h]
    rw [List.map_append]
    apply List.mem_append.mpr
    rcases hx with hx | rfl
    · exact Or.inl hx
    · exact Or.inr (by simp)

theorem mapInsert_fresh (m : List (Int × String)) (k : Int) (v : String)
    (hk : k ∉ m.map Prod.fst) : mapInsert m k v = m ++ [(k, v)] := by
  unfold mapInsert
  rw [if_neg]
  intro h
  obtain ⟨p, hp, hpk⟩ := List.any_eq_true.mp h
  exact hk (List.mem_map.mpr ⟨p, hp, by simpa using hpk⟩)

theorem mapLookup_of_mem_keys (m : List (Int × String)) (k : Int)
    (hk : k ∈ m.map Prod.fst) :
    ∃ q ∈ m, q.1 = k ∧ mapLookup m k = q.2 := by
  unfold mapLookup
  cases hf : m.find? (fun p => decide (p.1 = k)) with
  | none =>
    rw [List.find?_eq_none] at hf
    obtain ⟨q, hq, hqk⟩ := List.mem_map.mp hk
    exact absurd (by simpa using hqk) (by simpa using hf q hq)
  | some q =>
    have hmem := List.mem_of_find?_eq_some hf
    have hpk : q.1 = k := by simpa using List.find?_some hf
    exact ⟨q, hmem, hpk, rfl⟩

theorem mapLookup_nodup (m : List (Int × String)) (p : Int × String)
    (hnd : (m.map Prod.fst).Nodup) (hp : p ∈ m) :
    mapLookup m p.1 = p.2 := by
  induction m with
  | nil => cases hp
  | cons q rest ih =>
    rcases List.mem_cons.mp hp with rfl | hp2
    · unfold mapLookup
      rw [List.find?_cons_of_pos _ (by simp)]
    · have hq : q.1 ≠ p.1 := by
        intro he
        rw [List.map_cons, List.nodup_cons] at hnd
        exact hnd.1 (he ▸ List.mem_map.mpr ⟨p, hp2, rfl⟩)
      unfold mapLookup
      rw [List.find?_cons_of_neg _ (by simpa using hq)]
      exact ih (by rw [List.map_cons, List.nodup_cons] at hnd; exact hnd.2) hp2

theorem gatherTags_cons (s : DstSnap) (acc : List (Int × String) × List Int)
    (t : Tag) (rest : List Tag) :
    gatherTags s acc (t :: rest) = gatherTags s (gatherStep s acc t) rest := by
  unfold gatherTags
  rw [List.foldl_cons]

theorem gatherTags_inv (S : List DstSnap) (s : DstSnap) (ts0 : List Tag)
    (hs : s ∈ S) (hts0 : s.tags = .ok ts0) :
    ∀ (ts : List Tag) (acc : List (Int × String) × List Int),
      (∀ t ∈ ts, t ∈ ts0) →
      (∀ x ∈ acc.2, x ∈ acc.1.map Prod.fst) →
      (∀ q ∈ acc.1, ∃ s2 ∈ S, isManaged s2 ∧ q.2 = s2.id) →
      (∀ x ∈ (gatherTags s acc ts).2,
        x ∈ (gatherTags s acc ts).1.map Prod.fst)
      ∧ (∀ q ∈ (gatherTags s acc ts).1,
        ∃ s2 ∈ S, isManaged s2 ∧ q.2 = s2.id) := by
  intro ts
  induction ts with
  | nil => intro acc _ h1 h2; exact ⟨h1, h2⟩
  | cons t rest ih =>
    intro acc hsub h1 h2
    rw [gatherTags_cons]
    apply ih _ (fun t2 ht2 => hsub t2 (List.mem_cons_of_mem t ht2))
    · intro x hx
      unfold gatherStep at hx ⊢
      by_cases hm : t.key = "managedby" ∧ t.val = "rdsbackup"
      · by_cases hct : 0 < s.createTime
        · rw [if_pos hm, if_pos hct] at hx ⊢
          dsimp only at hx ⊢
          rcases List.mem_append.mp hx with hx1 | hx2
          · exact mapInsert_keys _ _ _ _ (Or.inl (h1 x hx1))
          · exact mapInsert_keys _ _ _ _
              (Or.inr (List.mem_singleton.mp hx2))
        · rw [if_pos hm, if_neg hct] at hx ⊢
          exact h1 x hx
      · rw [if_neg hm] at hx ⊢
        exact h1 x hx
    · intro q hq
      unfold gatherStep at hq
      by_cases hm : t.key = "managedby" ∧ t.val = "rdsbackup"
      · by_cases hct : 0 < s.createTime
        · rw [if_pos hm, if_pos hct] at hq
          dsimp only at hq
          rcases mapInsert_mem _ _ _ _ hq with hq1 | rfl
          · exact h2 q hq1
          · exact ⟨s, hs, ⟨ts0, hts0,
              ⟨t, hsub t (List.mem_cons_self t rest), hm.1, hm.2⟩⟩, rfl⟩
        · rw [if_pos hm, if_neg hct] at hq
          exact h2 q hq
      · rw [if_neg hm] at hq
        exact h2 q hq

theorem gatherSnaps_inv (S : List DstSnap) :
    ∀ (l : List DstSnap) (acc : List (Int × String) × List Int),
      (∀ s ∈ l, s ∈ S) →
      (∀ x ∈ acc.2, x ∈ acc.1.map Prod.fst) →
      (∀ q ∈ acc.1, ∃ s2 ∈ S, isManaged s2 ∧ q.2 = s2.id) →
      (∀ x ∈ (l.foldl gatherSnapStep acc).2,
        x ∈ (l.foldl gatherSnapStep acc).1.map Prod.fst)
      ∧ (∀ q ∈ (l.foldl gatherSnapStep acc).1,
        ∃ s2 ∈ S, isManaged s2 ∧ q.2 = s2.id) := by
  intro l
  induction l with
  | nil => intro acc _ h1 h2; exact ⟨h1, h2⟩
  | cons s rest ih =>
    intro acc hsub h1 h2
    rw [List.foldl_cons]
    have hstep :
        (∀ x ∈ (gatherSnapStep acc s).2,
          x ∈ (gatherSnapStep acc s).1.map Prod.fst)
        ∧ (∀ q ∈ (gatherSnapStep acc s).1,
          ∃ s2 ∈ S, isManaged s2 ∧ q.2 = s2.id) := by
      unfold gatherSnapStep
      cases hts : s.tags with
      | error e => exact ⟨h1, h2⟩
      | ok ts =>
        exact gatherTags_inv S s ts (hsub s (List.mem_cons_self s rest)) hts
          ts acc (fun t ht => ht) h1 h2
    exact ih (gatherSnapStep acc s)
      (fun s2 hs2 => hsub s2 (List.mem_cons_of_mem s hs2)) hstep.1 hstep.2

theorem purgeLoop_deleted_mem (m : List (Int × String))
    (deleteFn : String → Except Unit String) :
    ∀ (l : List Int) (x : String), x ∈ (purgeLoop m deleteFn l).1 →
      ∃ k ∈ l, x = mapLookup m k := by
  intro l
  induction l with
  | nil => intro x hx; cases hx
  | cons k ks ih =>
    intro x hx
    unfold purgeLoop at hx
    dsimp only at hx
    cases hd : deleteFn (mapLookup m k) with
    | error e =>
      rw [hd] at hx
      dsimp only at hx
      rcases List.mem_singleton.mp hx with rfl
      exact ⟨k, List.mem_cons_self k ks, rfl⟩
    | ok st =>
      rw [hd] at hx
      dsimp only at hx
      rcases (List.mem_cons.mp hx) with rfl | hx2
      · exact ⟨k, List.mem_cons_self k ks, rfl⟩
      · obtain ⟨k2, hk2, hxk2⟩ := ih x (by
          rcases hpl : purgeLoop m deleteFn ks with ⟨rest, r⟩
          rw [hpl] at hx2
          simpa using hx2)
        exact ⟨k2, List.mem_cons_of_mem k hk2, hxk2⟩

/-- C3: a destination snapshot that is not managed (its tag read failed, or
its tags lack a `managedby` tag with value `rdsbackup`) is never the target
of a deletion issued by the retention pass, whatever its age or timestamp
and whatever the other snapshots are, assuming region-unique snapshot
identifiers. -/
theorem c3_unmanaged_never_deleted (purge : Int) (ds : List DstSnap)
    (deleteFn : String → Except Unit String) (s : DstSnap)
    (hids : (ds.map DstSnap.id).Nodup) (hs : s ∈ ds)
    (hum : ¬ isManaged s) :
    s.id ∉ (cleanupSnaps purge (.ok ds) deleteFn).1 := by
  intro hmem
  unfold cleanupSnaps at hmem
  by_cases hp : purge ≤ 0
  · rw [if_pos hp] at hmem
    simp at hmem
  · rw [if_neg hp] at hmem
    dsimp only at hmem
    by_cases hlen : ((gatherSnaps ds).1.length : Int) ≤ purge
    · rw [if_pos hlen] at hmem
      simp at hmem
    · rw [if_neg hlen] at hmem
      obtain ⟨k, hk, hid⟩ := purgeLoop_deleted_mem _ _ _ _ hmem
      have hk2 : k ∈ (gatherSnaps ds).2 :=
        (List.perm_insertionSort _ (gatherSnaps ds).2).mem_iff.mp
          (List.take_subset _ _ hk)
      have hgs : gatherSnaps ds = ds.foldl gatherSnapStep ([], []) := rfl
      have hinv := gatherSnaps_inv ds ds ([], []) (fun a ha => ha)
        (by simp) (by simp)
      rw [← hgs] at hinv
      obtain ⟨q, hq, hqk, hlook⟩ :=
        mapLookup_of_mem_keys _ _ (hinv.1 k hk2)
      obtain ⟨s2, hs2, hman2, hqid⟩ := hinv.2 q hq
      have hss : s2 = s :=
        List.inj_on_of_nodup_map hids hs2 hs
          (by rw [← hqid, ← hlook]; exact hid.symm)
      exact hum (hss ▸ hman2)

/-- C3 witness: with an old unmanaged snapshot and two newer managed ones
under keep-count 1, the unmanaged snapshot's identifier is never deleted. -/
theorem c3_witness :
    ("u1" : String) ∉
      (cleanupSnaps 1
        (.ok [⟨"u1", 1, .ok []⟩,
              ⟨"m1", 2, .ok [⟨"managedby", "rdsbackup"⟩]⟩,
              ⟨"m2", 3, .ok [⟨"managedby", "rdsbackup"⟩]⟩])
        (fun _ => .ok "deleted")).1 :=
  c3_unmanaged_never_deleted 1
    [⟨"u1", 1, .ok []⟩,
     ⟨"m1", 2, .ok [⟨"managedby", "rdsbackup"⟩]⟩,
     ⟨"m2", 3, .ok [⟨"managedby", "rdsbackup"⟩]⟩]
    (fun _ => .ok "deleted") ⟨"u1", 1, .ok []⟩
    (by decide) (by decide) (by decide)

/-! ## The retention pass on fully managed, distinct, post-epoch snapshots -/

theorem gatherTags_no_mb (s : DstSnap) :
    ∀ (ts : List Tag) (acc : List (Int × String) × List Int),
      (∀ t ∈ ts, ¬(t.key = "managedby" ∧ t.val = "rdsbackup")) →
      gatherTags s acc ts = acc := by
  intro ts
  induction ts with
  | nil => intro acc _; rfl
  | cons t rest ih =>
    intro acc hts
    rw [gatherTags_cons]
    have hstep : gatherStep s acc t = acc := by
      unfold gatherStep
      rw [if_neg (hts t (List.mem_cons_self t rest))]
    rw [hstep]
    exact ih acc (fun t2 ht2 => hts t2 (List.mem_cons_of_mem t ht2))

theorem gatherTags_single (s : DstSnap) (hct : 0 < s.createTime) :
    ∀ (ts : List Tag) (acc : List (Int × String) × List Int),
      (ts.map Tag.key).Nodup →
      (⟨"managedby", "rdsbackup"⟩ : Tag) ∈ ts →
      gatherTags s acc ts =
        (mapInsert acc.1 s.createTime s.id, acc.2 ++ [s.createTime]) := by
  intro ts
  induction ts with
  | nil => intro acc _ hmb; cases hmb
  | cons t rest ih =>
    intro acc hnd hmb
    rw [List.map_cons, List.nodup_cons] at hnd
    rw [gatherTags_cons]
    rcases List.mem_cons.mp hmb with rfl | hmb2
    · have hstep : gatherStep s acc (⟨"managedby", "rdsbackup"⟩ : Tag) =
          (mapInsert acc.1 s.createTime s.id, acc.2 ++ [s.createTime]) := by
        unfold gatherStep
        rw [if_pos ⟨rfl, rfl⟩, if_pos hct]
      rw [hstep]
      apply gatherTags_no_mb
      rintro t2 ht2 ⟨hk, -⟩
      exact hnd.1 (hk ▸ List.mem_map.mpr ⟨t2, ht2, rfl⟩)
    · have hkne : ¬(t.key = "managedby" ∧ t.val = "rdsbackup") := by
        rintro ⟨hk, -⟩
        apply hnd.1
        rw [hk]
        exact List.mem_map.mpr ⟨_, hmb2, rfl⟩
      have hstep : gatherStep s acc t = acc := by
        unfold gatherStep
        rw [if_neg hkne]
      rw [hstep]
      exact ih acc hnd.2 hmb2

theorem gatherSnaps_managed :
    ∀ (l : List DstSnap) (acc : List (Int × String) × List Int),
      (∀ s ∈ l, ∃ ts, s.tags = .ok ts ∧ (ts.map Tag.key).Nodup ∧
        (⟨"managedby", "rdsbackup"⟩ : Tag) ∈ ts) →
      (∀ s ∈ l, 0 < s.createTime) →
      (l.map DstSnap.createTime).Nodup →
      (∀ s ∈ l, s.createTime ∉ acc.1.map Prod.fst) →
      l.foldl gatherSnapStep acc =
        (acc.1 ++ l.map (fun s => (s.createTime, s.id)),
         acc.2 ++ l.map DstSnap.createTime) := by
  intro l
  induction l with
  | nil => intro acc _ _ _ _; simp
  | cons s rest ih =>
    intro acc hman hpos hnd hfresh
    rw [List.map_cons, List.nodup_cons] at hnd
    rw [List.foldl_cons]
    obtain ⟨ts, hts, htnd, htmb⟩ := hman s (List.mem_cons_self s rest)
    have hstep : gatherSnapStep acc s =
        (acc.1 ++ [(s.createTime, s.id)], acc.2 ++ [s.createTime]) := by
      unfold gatherSnapStep
      rw [hts]
      dsimp only
      rw [gatherTags_single s (hpos s (List.mem_cons_self s rest)) ts acc
        htnd htmb]
      rw [mapInsert_fresh _ _ _ (hfresh s (List.mem_cons_self s rest))]
    rw [hstep]
    have hfresh2 : ∀ s2 ∈ rest,
        s2.createTime ∉ (acc.1 ++ [(s.createTime, s.id)]).map Prod.fst := by
      intro s2 hs2 hmem
      rw [List.map_append] at hmem
      rcases List.mem_append.mp hmem with h1 | h2
      · exact hfresh s2 (List.mem_cons_of_mem s hs2) h1
      · have he : s2.createTime = s.createTime := by simpa using h2
        exact hnd.1 (he ▸ List.mem_map.mpr ⟨s2, hs2, rfl⟩)
    rw [ih (acc.1 ++ [(s.createTime, s.id)], acc.2 ++ [s.createTime])
      (fun s2 hs2 => hman s2 (List.mem_cons_of_mem s hs2))
      (fun s2 hs2 => hpos s2 (List.mem_cons_of_mem s hs2)) hnd.2 hfresh2]
    simp

theorem purgeLoop_all_ok (m : List (Int × String))
    (deleteFn : String → Except Unit String)
    (hdel : ∀ i, deleteFn i = .ok "deleted") :
    ∀ l : List Int, purgeLoop m deleteFn l = (l.map (mapLookup m), .ok ()) := by
  intro l
  induction l with
  | nil => rfl
  | cons k ks ih =>
    unfold purgeLoop
    dsimp only
    rw [hdel (mapLookup m k), ih]
    simp

instance : IsTotal (Int × String) (fun a b => a.1 ≤ b.1) :=
  ⟨fun a b => Int.le_total a.1 b.1⟩

instance : IsTrans (Int × String) (fun a b => a.1 ≤ b.1) :=
  ⟨fun _ _ _ hab hbc => le_trans hab hbc⟩

theorem insertionSort_map_fst (pairs : List (Int × String)) :
    (pairs.insertionSort (fun a b => a.1 ≤ b.1)).map Prod.fst =
      (pairs.map Prod.fst).insertionSort (· ≤ ·) := by
  apply List.eq_of_perm_of_sorted (r := fun a b : Int => a ≤ b)
  · exact ((List.perm_insertionSort _ pairs).map Prod.fst).trans
      (List.perm_insertionSort _ (pairs.map Prod.fst)).symm
  · have hs := List.sorted_insertionSort
      (r := fun a b : Int × String => a.1 ≤ b.1) pairs
    exact List.Pairwise.map _ (fun a b h => h) hs
  · exact List.sorted_insertionSort _ _

/-- C2 counterexample: keep-count 1 with two managed snapshots timestamped
0 and 5 (distinct, second resolution).  The claim as stated requires the
single oldest managed snapshot (`"old"`) to be deleted, but the retention
pass filters on `SnapshotCreateTime.Unix() > 0`, silently dropping the
epoch-timestamped snapshot from the managed set: the remaining count (1)
does not exceed the keep-count, so nothing at all is deleted. -/
theorem c2_counterexample :
    cleanupSnaps 1
      (.ok [⟨"old", 0, .ok [⟨"managedby", "rdsbackup"⟩]⟩,
            ⟨"new", 5, .ok [⟨"managedby", "rdsbackup"⟩]⟩])
      (fun _ => .ok "deleted") = ([], .ok ()) := by
  decide

/-- C2 (amended): for every keep-count k and managed destination snapshots
with pairwise-distinct, strictly post-epoch (Unix seconds greater than 0)
creation timestamps and duplicate-free tag keys, the retention pass deletes
nothing when k is not positive (enforcement disabled) and nothing when the
managed count is at most k; otherwise it deletes exactly the
`count − k` oldest managed snapshots in ascending timestamp order, leaving
the k newest — as captured by the spec-side `retentionSpec`. -/
theorem c2_retention (keep : Int) (ds : List DstSnap)
    (deleteFn : String → Except Unit String)
    (hman : ∀ s ∈ ds, ∃ ts, s.tags = .ok ts ∧ (ts.map Tag.key).Nodup ∧
      (⟨"managedby", "rdsbackup"⟩ : Tag) ∈ ts)
    (hpos : ∀ s ∈ ds, 0 < s.createTime)
    (hdist : (ds.map DstSnap.createTime).Nodup)
    (hdel : ∀ i, deleteFn i = .ok "deleted") :
    cleanupSnaps keep (.ok ds) deleteFn =
      (retentionSpec (ds.map fun s => (s.createTime, s.id)) keep, .ok ()) := by
  have hg : gatherSnaps ds =
      (ds.map fun s => (s.createTime, s.id), ds.map DstSnap.createTime) := by
    have := gatherSnaps_managed ds ([], []) hman hpos hdist (by simp)
    simpa using this
  have hkeys : ds.map DstSnap.createTime =
      (ds.map fun s => (s.createTime, s.id)).map Prod.fst := by
    rw [List.map_map]
    rfl
  unfold cleanupSnaps retentionSpec
  by_cases hk : keep ≤ 0
  · rw [if_pos hk, if_pos (Or.inl hk)]
  · rw [if_neg hk]
    dsimp only
    rw [hg]
    dsimp only
    by_cases hle :
        ((ds.map fun s => (s.createTime, s.id)).length : Int) ≤ keep
    · rw [if_pos hle, if_pos (Or.inr hle)]
    · rw [if_neg hle, if_neg (by
        intro h
        rcases h with h | h
        · exact hk h
        · exact hle h)]
      rw [purgeLoop_all_ok _ _ hdel]
      have hnd2 : ((ds.map fun s => (s.createTime, s.id)).map Prod.fst).Nodup :=
        hkeys ▸ hdist
      rw [hkeys, ← insertionSort_map_fst, ← List.map_take, List.map_map]
      refine Prod.ext ?_ rfl
      dsimp only
      apply List.map_congr_left
      intro q hq
      have hq2 : q ∈ ds.map fun s => (s.createTime, s.id) :=
        (List.perm_insertionSort _ _).mem_iff.mp (List.take_subset _ _ hq)
      exact mapLookup_nodup _ q hnd2 hq2

/-- The shuffled managed destination list used by the C2 witness. -/
def exRetentionDs : List DstSnap :=
  [⟨"t4", 4, .ok [⟨"managedby", "rdsbackup"⟩]⟩,
   ⟨"t1", 1, .ok [⟨"managedby", "rdsbackup"⟩]⟩,
   ⟨"t5", 5, .ok [⟨"managedby", "rdsbackup"⟩]⟩,
   ⟨"t3", 3, .ok [⟨"managedby", "rdsbackup"⟩]⟩,
   ⟨"t2", 2, .ok [⟨"managedby", "rdsbackup"⟩]⟩]

/-- C2 witness: keep-count 3 over the five managed snapshots timestamped
1..5 deletes exactly the two oldest, `t1` then `t2`, oldest first. -/
theorem c2_witness :
    cleanupSnaps 3 (.ok exRetentionDs) (fun _ => .ok "deleted") =
      (retentionSpec (exRetentionDs.map fun s => (s.createTime, s.id)) 3,
        .ok ()) ∧
    retentionSpec (exRetentionDs.map fun s => (s.createTime, s.id)) 3 =
      ["t1", "t2"] := by
  constructor
  · apply c2_retention 3 exRetentionDs (fun _ => .ok "deleted")
    · intro s hs
      simp only [exRetentionDs, List.mem_cons, List.not_mem_nil, or_false]
        at hs
      rcases hs with rfl | rfl | rfl | rfl | rfl <;>
        exact ⟨[⟨"managedby", "rdsbackup"⟩], rfl, by decide, by decide⟩
    · decide
    · decide
    · intro i
      rfl
  · decide

theorem runMain_copyRequests (dbid src : String) (purge : Int) (env : Env)
    (fuel : Nat) (acct a : String)
    (hacct : findAcccountID env.getUser = .ok acct)
    (harn : findLatestSnap src acct env.srcSnaps = .ok a)
    (hchk : checkSnapCopied a env.checkSnaps = false) :
    (runMain dbid src purge env fuel).copyRequests =
      [mkCopyRequest dbid src a env.nowFmt env.nowStd env.nowUnix] := by
  rw [runMain_after_check dbid src purge env fuel acct a hacct harn hchk]
  cases copySnapResult env.copyStatus with
  | error e => rfl
  | ok u =>
    dsimp only
    rcases waitLoop env.polls fuel 0 with ⟨o, n⟩
    cases o with
    | none => rfl
    | some r =>
      cases r with
      | error e => rfl
      | ok u2 =>
        dsimp only
        rcases cleanupSnaps purge env.cleanSnaps env.deleteFn with ⟨dels, res⟩
        cases res with
        | error e => rfl
        | ok u3 => rfl

/-- C6 counterexample: the legacy variant's copy request carries only five
tag keys — `sourcearn` is absent — so it is not the case that every copy
request the tool issues attaches the full tag vocabulary of the data
model. -/
theorem c6_counterexample :
    (mkLegacyCopyRequest "mydb" "us-east-1"
        "arn:aws:rds:us-east-1:123456789012:snapshot:snap-a"
        "F" "S" "U").tags.map Tag.key =
      ["time", "timestamp", "source", "sourceid", "managedby"] ∧
    (mkLegacyCopyRequest "mydb" "us-east-1"
        "arn:aws:rds:us-east-1:123456789012:snapshot:snap-a"
        "F" "S" "U").tags.find? (fun t => t.key == "sourcearn") = none := by
  constructor
  · decide
  · decide

/-- C6 (amended): every copy request issued by the current (v1.2) core
attaches the full six-key tag vocabulary at creation time, and its
`sourcearn` tag value is exactly the fully-qualified snapshot reference
selected by the Locator in the same run — never stale and never derived
from a different snapshot; the legacy (v1.0) variant attaches the same
vocabulary minus the `sourcearn` tag. -/
theorem c6_copy_tags (dbid src : String) (purge : Int) (env : Env)
    (fuel : Nat) (acct a : String)
    (hacct : findAcccountID env.getUser = .ok acct)
    (harn : findLatestSnap src acct env.srcSnaps = .ok a)
    (hchk : checkSnapCopied a env.checkSnaps = false) :
    (runMain dbid src purge env fuel).copyRequests =
      [mkCopyRequest dbid src a env.nowFmt env.nowStd env.nowUnix]
    ∧ (mkCopyRequest dbid src a env.nowFmt env.nowStd env.nowUnix).tags.map
        Tag.key =
      ["time", "timestamp", "source", "sourceid", "sourcearn", "managedby"]
    ∧ hasTag (mkCopyRequest dbid src a env.nowFmt env.nowStd
        env.nowUnix).tags "sourcearn" a
    ∧ (mkCopyRequest dbid src a env.nowFmt env.nowStd
        env.nowUnix).sourceArn = a
    ∧ (mkLegacyCopyRequest dbid src a env.nowFmt env.nowStd
        env.nowUnix).tags.map Tag.key =
      ["time", "timestamp", "source", "sourceid", "managedby"] := by
  refine ⟨runMain_copyRequests dbid src purge env fuel acct a hacct harn hchk,
    rfl, ?_, rfl, rfl⟩
  refine ⟨⟨"sourcearn", a⟩, ?_, rfl, rfl⟩
  unfold mkCopyRequest copyTags
  simp

/-- C6 witness: on `envMiss` the issued request is exactly the expected one
and its `sourcearn` tag is the reference the Locator chose in this run. -/
theorem c6_witness :
    (runMain "db" "us-east-1" 0 envMiss 3).copyRequests =
      [mkCopyRequest "db" "us-east-1"
        "arn:aws:rds:us-east-1:123:snapshot:b" "F" "S" "U"] ∧
    hasTag (mkCopyRequest "db" "us-east-1"
        "arn:aws:rds:us-east-1:123:snapshot:b" "F" "S" "U").tags
      "sourcearn" "arn:aws:rds:us-east-1:123:snapshot:b" := by
  have h := c6_copy_tags "db" "us-east-1" 0 envMiss 3 "123"
    "arn:aws:rds:us-east-1:123:snapshot:b" (by decide) (by decide) (by decide)
  exact ⟨h.1, h.2.2.1⟩

/-- An environment whose only remote failure is the destination-region
enumeration performed by the idempotency check. -/
def envCheckFail : Env :=
  { getUser := .ok "arn:aws:iam::123:user/bob"
    srcSnaps := .ok [⟨"a", 5⟩, ⟨"b", 9⟩]
    checkSnaps := .error ()
    copyStatus := .ok "creating"
    polls := fun _ => .ok [⟨"available", 100⟩]
    cleanSnaps := .ok []
    deleteFn := fun _ => .ok "deleted"
    nowFmt := "F", nowStd := "S", nowUnix := "U" }

/-- C5 counterexample: a run whose only remote-call failure is the
destination enumeration inside the idempotency check.  The claim allows a
single exception class (individual tag reads), so this failure should have
been returned to the top level with a non-zero exit; instead
`checkSnapCopied` swallows it, answers "not copied", and the run proceeds
to copy and exits 0. -/
theorem c5_counterexample :
    envCheckFail.checkSnaps = .error () ∧
    runMain "db" "us-east-1" 0 envCheckFail 3 =
      ⟨some 0,
        [mkCopyRequest "db" "us-east-1"
          "arn:aws:rds:us-east-1:123:snapshot:b" "F" "S" "U"], 1, []⟩ := by
  constructor
  · rfl
  · decide

/-- C5 (amended): every remote-call failure in the core is propagated to
the top level and exits non-zero, with two exception classes rather than
one: (i) an individual snapshot's tag-read failure during the idempotency
or retention scan only skips that snapshot, and (ii) a failure of the
destination enumeration inside the idempotency check is swallowed — the
check answers "not copied" and the run proceeds to copy.  Conjuncts:
identity-lookup failure; source-enumeration failure; copy-request failure;
poll failure inside the wait loop; poll-failure propagation through main;
retention-enumeration failure; deletion failure aborting the purge loop;
deletion-failure propagation through main; tag-read skip in the
idempotency scan; tag-read skip in the retention pass; and the swallowed
idempotency enumeration failure. -/
theorem c5_error_propagation :
    (∀ (dbid src : String) (purge : Int) (env : Env) (fuel : Nat),
      env.getUser = .error () →
      runMain dbid src purge env fuel = ⟨some 1, [], 0, []⟩)
    ∧ (∀ (dbid src : String) (purge : Int) (env : Env) (fuel : Nat)
        (acct : String),
      findAcccountID env.getUser = .ok acct →
      env.srcSnaps = .error () →
      runMain dbid src purge env fuel = ⟨some 1, [], 0, []⟩)
    ∧ (∀ (dbid src : String) (purge : Int) (env : Env) (fuel : Nat)
        (acct a : String),
      findAcccountID env.getUser = .ok acct →
      findLatestSnap src acct env.srcSnaps = .ok a →
      checkSnapCopied a env.checkSnaps = false →
      env.copyStatus = .error () →
      runMain dbid src purge env fuel =
        ⟨some 1, [mkCopyRequest dbid src a env.nowFmt env.nowStd env.nowUnix],
          0, []⟩)
    ∧ (∀ (polls : Nat → Except Unit (List PollSnap)) (fuel i : Nat),
      polls i = .error () → 0 < fuel →
      waitLoop polls fuel i = (some (.error "remote call failed"), i + 1))
    ∧ (∀ (dbid src : String) (purge : Int) (env : Env) (fuel : Nat)
        (acct a : String) (n : Nat),
      findAcccountID env.getUser = .ok acct →
      findLatestSnap src acct env.srcSnaps = .ok a →
      checkSnapCopied a env.checkSnaps = false →
      copySnapResult env.copyStatus = .ok () →
      waitLoop env.polls fuel 0 = (some (.error "remote call failed"), n) →
      runMain dbid src purge env fuel =
        ⟨some 1, [mkCopyRequest dbid src a env.nowFmt env.nowStd env.nowUnix],
          n, []⟩)
    ∧ (∀ (purge : Int) (deleteFn : String → Except Unit String),
      ¬purge ≤ 0 →
      cleanupSnaps purge (.error ()) deleteFn =
        ([], .error "remote call failed"))
    ∧ (∀ (m : List (Int × String)) (deleteFn : String → Except Unit String)
        (k : Int) (ks : List Int),
      deleteFn (mapLookup m k) = .error () →
      purgeLoop m deleteFn (k :: ks) =
        ([mapLookup m k], .error "remote call failed"))
    ∧ (∀ (dbid src : String) (purge : Int) (env : Env) (fuel : Nat)
        (acct a : String) (n : Nat) (dels : List String) (e : String),
      findAcccountID env.getUser = .ok acct →
      findLatestSnap src acct env.srcSnaps = .ok a →
      checkSnapCopied a env.checkSnaps = false →
      copySnapResult env.copyStatus = .ok () →
      waitLoop env.polls fuel 0 = (some (.ok ()), n) →
      cleanupSnaps purge env.cleanSnaps env.deleteFn = (dels, .error e) →
      runMain dbid src purge env fuel =
        ⟨some 1, [mkCopyRequest dbid src a env.nowFmt env.nowStd env.nowUnix],
          n, dels⟩)
    ∧ (∀ (arn : String) (l1 l2 : List DstSnap) (s : DstSnap),
      s.tags = .error () →
      checkSnapCopied arn (.ok (l1 ++ s :: l2)) =
        checkSnapCopied arn (.ok (l1 ++ l2)))
    ∧ (∀ (purge : Int) (deleteFn : String → Except Unit String)
        (l1 l2 : List DstSnap) (s : DstSnap),
      s.tags = .error () →
      cleanupSnaps purge (.ok (l1 ++ s :: l2)) deleteFn =
        cleanupSnaps purge (.ok (l1 ++ l2)) deleteFn)
    ∧ (∀ arn : String, checkSnapCopied arn (.error ()) = false) := by
  refine ⟨?_, ?_, ?_, ?_, ?_, ?_, ?_, ?_, ?_, ?_, ?_⟩
  · intro dbid src purge env fuel h
    have hacc : findAcccountID env.getUser = .error "remote call failed" := by
      rw [h]
      rfl
    unfold runMain
    rw [hacc]
  · intro dbid src purge env fuel acct hacct h
    have harn : findLatestSnap src acct env.srcSnaps =
        .error "remote call failed" := by
      rw [h]
      rfl
    unfold runMain
    rw [hacct]
    dsimp only
    rw [harn]
  · intro dbid src purge env fuel acct a hacct harn hchk h
    have hcp : copySnapResult env.copyStatus = .error "remote call failed" := by
      rw [h]
      rfl
    rw [runMain_after_check dbid src purge env fuel acct a hacct harn hchk,
      hcp]
  · intro polls fuel i hp hf
    obtain ⟨f2, rfl⟩ : ∃ f2, fuel = f2 + 1 := ⟨fuel - 1, by omega⟩
    conv_lhs => rw [waitLoop]
    rw [hp]
  · intro dbid src purge env fuel acct a n hacct harn hchk hcp hw
    rw [runMain_after_check dbid src purge env fuel acct a hacct harn hchk,
      hcp]
    dsimp only
    rw [hw]
  · intro purge deleteFn hp
    unfold cleanupSnaps
    rw [if_neg hp]
  · intro m deleteFn k ks hd
    unfold purgeLoop
    dsimp only
    rw [hd]
  · intro dbid src purge env fuel acct a n dels e hacct harn hchk hcp hw hcl
    rw [runMain_after_check dbid src purge env fuel acct a hacct harn hchk,
      hcp]
    dsimp only
    rw [hw]
    dsimp only
    rw [hcl]
  · intro arn l1 l2 s hts
    have hfalse : snapAlreadyCopied arn s = false := by
      unfold snapAlreadyCopied
      rw [hts]
    unfold checkSnapCopied
    dsimp only
    rw [List.any_append, List.any_append, List.any_cons, hfalse]
    simp
  · intro purge deleteFn l1 l2 s hts
    have hg : gatherSnaps (l1 ++ s :: l2) = gatherSnaps (l1 ++ l2) := by
      unfold gatherSnaps
      rw [List.foldl_append, List.foldl_append, List.foldl_cons]
      have hstep : gatherSnapStep (l1.foldl gatherSnapStep ([], [])) s =
          l1.foldl gatherSnapStep ([], []) := by
        unfold gatherSnapStep
        rw [hts]
      rw [hstep]
    unfold cleanupSnaps
    dsimp only
    rw [hg]
  · intro arn
    rfl

/-- An environment whose identity lookup fails. -/
def envUserFail : Env := { envMiss with getUser := .error () }

/-- An environment whose source-region enumeration fails. -/
def envSrcFail : Env := { envMiss with srcSnaps := .error () }

/-- An environment whose copy request fails. -/
def envCopyFail : Env := { envMiss with copyStatus := .error () }

/-- An environment whose first completion poll fails. -/
def envPollFail : Env := { envMiss with polls := fun _ => .error () }

/-- An environment whose retention pass finds two managed snapshots and
whose deletion call fails. -/
def envDeleteFail : Env :=
  { envMiss with
    cleanSnaps := .ok [⟨"t1", 1, .ok [⟨"managedby", "rdsbackup"⟩]⟩,
                       ⟨"t2", 2, .ok [⟨"managedby", "rdsbackup"⟩]⟩]
    deleteFn := fun _ => .error () }

/-- C5 witness: each propagation conjunct instantiated at a concrete
environment that fails at exactly that remote call. -/
theorem c5_witness :
    runMain "db" "us-east-1" 0 envUserFail 3 = ⟨some 1, [], 0, []⟩ ∧
    runMain "db" "us-east-1" 0 envSrcFail 3 = ⟨some 1, [], 0, []⟩ ∧
    runMain "db" "us-east-1" 0 envCopyFail 3 =
      ⟨some 1,
        [mkCopyRequest "db" "us-east-1"
          "arn:aws:rds:us-east-1:123:snapshot:b" "F" "S" "U"], 0, []⟩ ∧
    waitLoop (fun _ => .error ()) 1 0 =
      (some (.error "remote call failed"), 1) ∧
    runMain "db" "us-east-1" 0 envPollFail 3 =
      ⟨some 1,
        [mkCopyRequest "db" "us-east-1"
          "arn:aws:rds:us-east-1:123:snapshot:b" "F" "S" "U"], 1, []⟩ ∧
    cleanupSnaps 1 (.error ()) (fun _ => .ok "deleted") =
      ([], .error "remote call failed") ∧
    purgeLoop [] (fun _ => .error ()) [0] =
      ([""], .error "remote call failed") ∧
    runMain "db" "us-east-1" 1 envDeleteFail 3 =
      ⟨some 1,
        [mkCopyRequest "db" "us-east-1"
          "arn:aws:rds:us-east-1:123:snapshot:b" "F" "S" "U"], 1, ["t1"]⟩ ∧
    checkSnapCopied "X" (.ok [⟨"x", 1, .error ()⟩]) =
      checkSnapCopied "X" (.ok []) ∧
    cleanupSnaps 1 (.ok [⟨"x", 1, .error ()⟩]) (fun _ => .ok "deleted") =
      cleanupSnaps 1 (.ok []) (fun _ => .ok "deleted") ∧
    checkSnapCopied "X" (.error ()) = false := by
  obtain ⟨h1, h2, h3, h4, h5, h6, h7, h8, h9, h10, h11⟩ :=
    c5_error_propagation
  refine ⟨h1 "db" "us-east-1" 0 envUserFail 3 rfl,
    h2 "db" "us-east-1" 0 envSrcFail 3 "123" (by decide) rfl,
    h3 "db" "us-east-1" 0 envCopyFail 3 "123"
      "arn:aws:rds:us-east-1:123:snapshot:b"
      (by decide) (by decide) (by decide) rfl,
    h4 (fun _ => .error ()) 1 0 rfl (by omega),
    h5 "db" "us-east-1" 0 envPollFail 3 "123"
      "arn:aws:rds:us-east-1:123:snapshot:b" 1
      (by decide) (by decide) (by decide) (by decide) (by decide),
    h6 1 (fun _ => .ok "deleted") (by omega),
    h7 [] (fun _ => .error ()) 0 [] rfl,
    h8 "db" "us-east-1" 1 envDeleteFail 3 "123"
      "arn:aws:rds:us-east-1:123:snapshot:b" 1 ["t1"] "remote call failed"
      (by decide) (by decide) (by decide) (by decide) (by decide) (by decide),
    h9 "X" [] [] ⟨"x", 1, .error ()⟩ rfl,
    h10 1 (fun _ => .ok "deleted") [] [] ⟨"x", 1, .error ()⟩ rfl,
    h11 "X"⟩
